import Mathlib

/-!
Shallow embedding of the chess game-record ETL pipeline of this repository:
the record normalizer and dataset builder (`src/chess_process.py`), the
validation and PGN-parsing helpers (`src/utils.py`), and the perspective
projector (`src/perspective_data_generator.py`).

Python dictionaries with optional keys become structures of `Option` fields
(`none` = key absent).  External Python collaborators whose code is not part
of the repository (`chess.pgn.read_game` from python-chess, and
`datetime.fromtimestamp`) enter the model as abstract functions bundled in
`PyEnv`; everything written in the repository itself is translated directly.
A Python exception that escapes a modelled block is represented by `none`
in an `Option` result.

The Python string primitives used by the code (`lower`, `split`, `replace`,
`strip`, `int(...)`, substring membership) are modelled by executable
character-list functions below, so that every definition evaluates inside
the kernel.
-/

namespace ChessETL

/-- The whitespace characters stripped by Python `str.strip()`. -/
def isPySpace (c : Char) : Bool :=
  [' ', '\t', '\n', '\r', '\x0B', '\x0C'].contains c

/-- Python `str.lower()` (ASCII model). -/
def pyLower (s : String) : String :=
  String.mk (s.data.map Char.toLower)

/-- Python `str.strip()`. -/
def pyTrim (s : String) : String :=
  String.mk (((s.data.dropWhile isPySpace).reverse.dropWhile isPySpace).reverse)

/-- Fuel-driven core of Python `str.split(sep)` for a non-empty separator:
at each position, a separator match cuts the string; the fuel (initially the
input length) only bounds the recursion. -/
def pySplitGo (sep : List Char) : Nat → List Char → List (List Char)
  | 0, rest => [rest]
  | fuel + 1, l =>
    match l with
    | [] => [[]]
    | c :: cs =>
      if sep.isPrefixOf l then
        [] :: pySplitGo sep fuel (l.drop sep.length)
      else
        match pySplitGo sep fuel cs with
        | [] => [[c]]
        | h :: t => (c :: h) :: t

/-- Python `s.split(sep)` for a non-empty literal separator. -/
def pySplit (s sep : String) : List String :=
  (pySplitGo sep.data s.data.length s.data).map String.mk

/-- Python `s.replace(pat, rep)` for a non-empty literal pattern. -/
def pyReplace (s pat rep : String) : String :=
  String.mk (List.intercalate rep.data (pySplitGo pat.data s.data.length s.data))

/-- Value of a non-empty all-ASCII-digit character list. -/
def pyDigits? (l : List Char) : Option Nat :=
  if l ≠ [] ∧ l.all (fun c => '0' ≤ c && c ≤ '9') then
    some (l.foldl (fun n c => 10 * n + (c.toNat - 48)) 0)
  else none

/-- Python `int(s)` on a decimal string: surrounding whitespace allowed, an
optional single sign, then at least one ASCII digit; anything else raises
(modelled as `none`). -/
def pyInt? (s : String) : Option Int :=
  let t := (pyTrim s).data
  let signDigits : Int × List Char :=
    match t with
    | '-' :: rest => (-1, rest)
    | '+' :: rest => (1, rest)
    | rest => (1, rest)
  match pyDigits? signDigits.2 with
  | some n => some (signDigits.1 * n)
  | none => none

/-- A player sub-record of a raw game (`game["white"]` / `game["black"]`).
Every field is optional because the corresponding dictionary key may be
absent from the raw JSON. -/
structure RawPlayer where
  username : Option String
  rating : Option Int
  result : Option String
deriving DecidableEq

/-- A raw game record from one monthly archive (one element of the `games`
list).  `Option` marks dictionary-key presence: `none` means the key is
absent.  The top-level `result` key is read at the start of
`extract_game_data` but is overwritten by every branch of the outcome
ladder, so it never reaches the output. -/
structure RawGame where
  white : Option RawPlayer
  black : Option RawPlayer
  result : Option String
  end_time : Option Int
  time_control : Option String
  url : Option String
  pgn : Option String
deriving DecidableEq

/-- The observable behaviour of `chess.pgn.read_game` on one input that the
repository code consumes: the header tags it reads (`ECO`, `Opening`,
`Result`, `ECOUrl`; `none` = tag absent), the number of mainline half-moves
that replay successfully, and whether the position-building step raises.
`read_game` collects exceptions into `game.errors` and still returns the
game, but the repository itself then calls `game.board()`, which re-derives
the starting position from the headers and raises `ValueError` on an invalid
`FEN` or unsupported `Variant` header; `board_raises` is true when that call
(or a push during the replay loop) raises. -/
structure PgnGame where
  eco : Option String
  opening : Option String
  result : Option String
  ecoUrl : Option String
  mainline_length : Nat
  board_raises : Bool
deriving DecidableEq

/-- The four time-derived fields produced by a successful
`datetime.fromtimestamp` conversion plus `strftime` formatting. -/
structure DateParts where
  end_date : String
  end_datetime : String
  year : Int
  month : String
deriving DecidableEq

/-- External (non-repository) Python collaborators.  `read_game pgn = none`
models `chess.pgn.read_game` returning `None` (empty or unreadable input);
`fromtimestamp t = none` models `datetime.fromtimestamp` raising. -/
structure PyEnv where
  read_game : String → Option PgnGame
  fromtimestamp : Int → Option DateParts

/-- Result record of `utils.parse_pgn_game`. -/
structure PgnInfo where
  move_count : Nat
  eco_code : Option String
  opening_name : Option String
  result : Option String
deriving DecidableEq

/-- The initial (and failure) value of `game_info` in `utils.parse_pgn_game`. -/
def zeroPgnInfo : PgnInfo := ⟨0, none, none, none⟩

/-- Python truthiness of an optional string: `None` and the empty string are
falsy. -/
def truthyStr : Option String → Bool
  | none => false
  | some s => !(s == "")

/-- ASCII approximation of Python `str.title`: the first letter of each
alphabetic run is upper-cased, the rest lower-cased. -/
def titleCaseGo : List Char → Bool → List Char
  | [], _ => []
  | c :: cs, prevAlpha =>
    if c.isAlpha then
      (if prevAlpha then c.toLower else c.toUpper) :: titleCaseGo cs true
    else c :: titleCaseGo cs false

/-- Python `s.title()` (see `titleCaseGo`). -/
def titleCase (s : String) : String := String.mk (titleCaseGo s.data false)

/-- The opening-name computation of `utils.parse_pgn_game`: the `Opening`
header when truthy, otherwise the `ECOUrl` fallback (final path segment,
hyphens to spaces, ellipsis markers stripped, trimmed, title-cased). -/
def opening_name_of (game : PgnGame) : Option String :=
  let opening0 := game.opening
  if truthyStr opening0 then opening0
  else
    let eco_url := game.ecoUrl.getD ""
    if eco_url ≠ "" then
      let parts := pySplit eco_url "/openings/"
      if parts.length > 1 then
        let raw_name := pyReplace (parts.getD 1 "") "-" " "
        some (titleCase (pyTrim (pyReplace raw_name "..." " ")))
      else opening0
    else opening0

/-- `utils.parse_pgn_game`: zero-value record when `read_game` yields no
game; otherwise the three header tags and the opening-name fallback are
written into `game_info` first, and only then is the board built and the
mainline replayed.  When `game.board()` (or a push) raises, the handler of
the function returns the partially-updated record: headers kept,
`move_count` never assigned and so still 0.  No failure reaches the
caller. -/
def parse_pgn_game (env : PyEnv) (pgn_string : String) : PgnInfo :=
  match env.read_game pgn_string with
  | none => zeroPgnInfo
  | some game =>
    let eco_code := game.eco
    let opening_name := opening_name_of game
    let result := game.result
    if game.board_raises = true then ⟨0, eco_code, opening_name, result⟩
    else ⟨game.mainline_length, eco_code, opening_name, result⟩

/-- `utils.validate_chess_data`: every required key (`white`, `black`,
`end_time`, `pgn`) must be present; values are not inspected. -/
def validate_chess_data (g : RawGame) : Bool :=
  g.white.isSome && g.black.isSome && g.end_time.isSome && g.pgn.isSome

/-- Game-type classification from the time-control descriptor
(`chess_process.py`: the `try/except` around `int(time_control.split("+")[0])`;
an unparsable base falls through to the slash test). -/
def gameTypeOf (time_control : String) : String :=
  match pyInt? ((pySplit time_control "+").headD "") with
  | some base_time =>
    if base_time ≤ 180 then "bullet"
    else if base_time ≤ 600 then "blitz"
    else "rapid"
  | none =>
    if time_control.data.contains '/' then "daily" else "unknown"

/-- The draw-cause tokens tested by the third rung of the outcome ladder. -/
def drawTokens : List String :=
  ["agreed", "repetition", "stalemate", "insufficient", "50move", "timevsinsufficient"]

/-- Python substring test `"1/2-1/2" in s`. -/
def hasDrawNotation (s : String) : Bool :=
  decide (2 ≤ (pySplit s "1/2-1/2").length)

/-- The outcome-resolution ladder of `extract_game_data`, producing
`(winner, result, result_category)`.  Returns `none` where the Python code
raises: in the final rung `extracted["result"]` is set to
`extracted["pgn_result"]` — the key is always present, so the default of
`dict.get` never applies — and when that stored value is `None`, the test
`"1/2-1/2" in None` raises `TypeError`, which the surrounding handler turns
into a rejected record. -/
def outcomeTriple (white_username black_username white_result black_result : String)
    (pgn_result : Option String) : Option (String × String × String) :=
  if white_result = "win" then
    some (white_username, "1-0", black_result)
  else if black_result = "win" then
    some (black_username, "0-1", white_result)
  else if drawTokens.contains white_result || drawTokens.contains black_result then
    some ("draw", "1/2-1/2", white_result)
  else
    match pgn_result with
    | none => none
    | some s =>
      some ((if hasDrawNotation s then "draw" else ""), s,
        white_result ++ "/" ++ black_result)

/-- The canonical game row built by `ChessProcessor.extract_game_data`.
The raw `pgn` text is kept in the row (it is only dropped at CSV export). -/
structure CRow where
  white_username : String
  black_username : String
  white_rating : Int
  black_rating : Int
  result : String
  end_time : Int
  time_control : String
  url : String
  pgn : String
  end_date : String
  end_datetime : String
  year : Int
  month : String
  rating_diff : Int
  game_type : String
  move_count : Nat
  eco_code : Option String
  opening_name : Option String
  pgn_result : Option String
  winner : String
  result_category : String
  white_win : Bool
  black_win : Bool
  is_draw : Bool
deriving DecidableEq

/-- The all-default `DateParts` used when `end_time` is falsy or the
conversion raises. -/
def defaultDate : DateParts := ⟨"", "", 0, ""⟩

/-- The body of `extract_game_data` after validation has established that the
four required keys are present. -/
def mkExtracted (env : PyEnv) (white black : RawPlayer) (end_time : Int)
    (pgn time_control url : String) : Option CRow :=
  let white_username := white.username.getD ""
  let black_username := black.username.getD ""
  let white_rating := white.rating.getD 0
  let black_rating := black.rating.getD 0
  let dparts :=
    if end_time ≠ 0 then
      match env.fromtimestamp end_time with
      | some dp => dp
      | none => defaultDate
    else defaultDate
  let rating_diff := white_rating - black_rating
  let game_type := gameTypeOf time_control
  let pinfo := if pgn ≠ "" then parse_pgn_game env pgn else zeroPgnInfo
  let white_result := pyLower (white.result.getD "")
  let black_result := pyLower (black.result.getD "")
  match outcomeTriple white_username black_username white_result black_result
      pinfo.result with
  | none => none
  | some (winner, result, result_category) =>
    some {
      white_username := white_username
      black_username := black_username
      white_rating := white_rating
      black_rating := black_rating
      result := result
      end_time := end_time
      time_control := time_control
      url := url
      pgn := pgn
      end_date := dparts.end_date
      end_datetime := dparts.end_datetime
      year := dparts.year
      month := dparts.month
      rating_diff := rating_diff
      game_type := game_type
      move_count := pinfo.move_count
      eco_code := pinfo.eco_code
      opening_name := pinfo.opening_name
      pgn_result := pinfo.result
      winner := winner
      result_category := result_category
      white_win := winner == white_username
      black_win := winner == black_username
      is_draw := winner == "draw" }

/-- `ChessProcessor.extract_game_data`: validation gate, then field
extraction; `none` both on failed validation and on the exception path of
the outcome ladder. -/
def extract_game_data (env : PyEnv) (g : RawGame) : Option CRow :=
  if validate_chess_data g then
    match g.white, g.black, g.end_time, g.pgn with
    | some white, some black, some end_time, some pgn =>
      mkExtracted env white black end_time pgn (g.time_control.getD "")
        (g.url.getD "")
    | _, _, _, _ => none
  else none

/-- `ChessProcessor.process_json_file` on the `games` list of one archive:
records that fail extraction are silently dropped. -/
def process_json_file (env : PyEnv) (games : List RawGame) : List CRow :=
  games.filterMap (extract_game_data env)

/-- pandas `drop_duplicates(subset=["url"], keep="first")`: a left-to-right
scan keeping a row only when its url has not been seen before. -/
def dropDupByUrl (seen : List String) : List CRow → List CRow
  | [] => []
  | r :: rs =>
    if r.url ∈ seen then dropDupByUrl seen rs
    else r :: dropDupByUrl (r.url :: seen) rs

/-- Deduplication step of `ChessProcessor.process_all_files`. -/
def dedupeByUrl (rows : List CRow) : List CRow := dropDupByUrl [] rows

/-- The sort key of `df.sort_values("end_time", ascending=True)`. -/
def rowLe (a b : CRow) : Prop := a.end_time ≤ b.end_time

instance : DecidableRel rowLe := fun a b => Int.decLe a.end_time b.end_time

instance : IsTotal CRow rowLe := ⟨fun a b => Int.le_total a.end_time b.end_time⟩

instance : IsTrans CRow rowLe := ⟨fun _ _ _ h h' => Int.le_trans h h'⟩

/-- Concatenation of the per-archive extraction results in input order
(the `all_games.extend(games)` loop of `process_all_files`). -/
def normalized_rows (env : PyEnv) (batches : List (List RawGame)) : List CRow :=
  batches.flatMap (process_json_file env)

/-- The contract of pandas `sort_values("end_time", ascending=True)` with the
default `kind="quicksort"`: the library documents quicksort as not stable,
so the call promises only some permutation of the input that is
non-decreasing in the key. -/
def sortValuesPermitted (inp out : List CRow) : Prop :=
  out.Perm inp ∧ out.Pairwise rowLe

/-- `ChessProcessor.process_all_files` as an executable model: extract every
batch, deduplicate by url, sort by `end_time`.  The deterministic sort used
here is one behaviour permitted by the `sort_values` contract; see
`sortValuesPermitted`. -/
def process_all_files (env : PyEnv) (batches : List (List RawGame)) : List CRow :=
  List.insertionSort rowLe (dedupeByUrl (normalized_rows env batches))

/-- `ChessProcessor.process_all_files` as a relation covering every output
that the pandas sorting primitive permits. -/
def processAllFilesRel (env : PyEnv) (batches : List (List RawGame))
    (out : List CRow) : Prop :=
  sortValuesPermitted (dedupeByUrl (normalized_rows env batches)) out

/-- The stability property claimed for the dataset sort: any two rows of the
sort input that appear in a given order with equal `end_time` appear in the
same order in the output. -/
def tieOrderPreserved (inp out : List CRow) : Prop :=
  ∀ a ∈ inp, ∀ b ∈ inp, [a, b].Sublist inp → a.end_time = b.end_time →
    [a, b].Sublist out

/-- One row of the perspective dataset as returned by
`perspective_data_generator.generate_row`. -/
structure PRow where
  game_date : String
  game_time : Int
  end_datetime : String
  player_name : String
  opponent_name : String
  player_rating : Int
  opponent_rating : Int
  rating_diff : Int
  difficulty_category : String
  result_status : String
  game_type : String
  opening_name : Option String
  move_count : Nat
  player_color : String
  game_url : String
deriving DecidableEq

/-- The difficulty bucket chain of `generate_row` (first match wins). -/
def difficulty_bucket (rating_diff : Int) : String :=
  if 100 ≤ rating_diff then "Much Stronger (+100+)"
  else if 25 ≤ rating_diff then "Stronger (+25 to +99)"
  else if -25 < rating_diff then "Similar (±25)"
  else if -100 < rating_diff then "Weaker (-25 to -99)"
  else "Much Weaker (-100+)"

/-- `perspective_data_generator.generate_row`: one game from one side. -/
def generate_row (row : CRow) (perspective : String) : PRow :=
  let is_white := perspective == "white"
  let player := if is_white then row.white_username else row.black_username
  let opponent := if is_white then row.black_username else row.white_username
  let player_rating := if is_white then row.white_rating else row.black_rating
  let opponent_rating := if is_white then row.black_rating else row.white_rating
  let winner := row.winner
  let result_status :=
    if winner = "draw" then "Draw"
    else if winner = player then "Win"
    else "Loss"
  let rating_diff := player_rating - opponent_rating
  { game_date := row.end_date
    game_time := row.end_time
    end_datetime := row.end_datetime
    player_name := player
    opponent_name := opponent
    player_rating := player_rating
    opponent_rating := opponent_rating
    rating_diff := rating_diff
    difficulty_category := difficulty_bucket rating_diff
    result_status := result_status
    game_type := row.game_type
    opening_name := row.opening_name
    move_count := row.move_count
    player_color := perspective
    game_url := row.url }

/-- A perspective row with the BI flag columns added by
`create_perspective_data` (pandas `astype(int)` booleans). -/
structure FPRow extends PRow where
  is_win : Int
  is_loss : Int
  is_draw : Int
deriving DecidableEq

/-- The flag columns added to the perspective frame. -/
def add_flags (p : PRow) : FPRow :=
  { toPRow := p
    is_win := if p.result_status = "Win" then 1 else 0
    is_loss := if p.result_status = "Loss" then 1 else 0
    is_draw := if p.result_status = "Draw" then 1 else 0 }

/-- Per-canonical-row emission of `create_perspective_data`: the white side
is tested first, then the black side; each side whose username is in the
subject list contributes one row. -/
def perspective_rows_for (subjects : List String) (r : CRow) : List PRow :=
  (if subjects.contains r.white_username then [generate_row r "white"] else [])
    ++ (if subjects.contains r.black_username then [generate_row r "black"] else [])

/-- The sort key of `sort_values("game_time", ascending=True)` on the
perspective frame. -/
def fpLe (a b : FPRow) : Prop := a.game_time ≤ b.game_time

instance : DecidableRel fpLe := fun a b => Int.decLe a.game_time b.game_time

/-- `perspective_data_generator.create_perspective_data` on an already-loaded
canonical table with an explicit subject list: `none` models the `False`
return taken when no perspective row was generated. -/
def create_perspective_data (subjects : List String) (rows : List CRow) :
    Option (List FPRow) :=
  let prs := rows.flatMap (perspective_rows_for subjects)
  if prs.isEmpty then none
  else some (List.insertionSort fpLe (prs.map add_flags))

/-- The empty player sub-record used by the Python default `game.get("white", {})`
when the outcome tokens are read. -/
def noPlayer : RawPlayer := ⟨none, none, none⟩

/-- The lower-cased outcome token of the white side of a raw record
(`str(game.get("white", {}).get("result", "")).lower()`). -/
def whiteToken (g : RawGame) : String :=
  pyLower ((g.white.getD noPlayer).result.getD "")

/-- The lower-cased outcome token of the black side of a raw record. -/
def blackToken (g : RawGame) : String :=
  pyLower ((g.black.getD noPlayer).result.getD "")

/-- A collaborator environment in which the PGN reader yields no game and the
timestamp conversion raises: the behaviour on empty PGN input. -/
def env0 : PyEnv := ⟨fun _ => none, fun _ => none⟩

/-- A collaborator environment in which every PGN input reads as a game with
only the default `Result` header `*` and three replayable half-moves. -/
def env1 : PyEnv :=
  ⟨fun _ => some ⟨none, none, some "*", none, 3, false⟩, fun _ => none⟩

/-- A raw record that passes validation but resolves no outcome: both tokens
are `resigned` and the PGN text is empty, so `pgn_result` is `None`. -/
def gNoPgn : RawGame :=
  ⟨some ⟨some "a", some 1500, some "resigned"⟩,
   some ⟨some "b", some 1400, some "resigned"⟩,
   none, some 5, some "600", some "u", some ""⟩

/-- A malformed raw record in which both sides carry the same username and
white is marked `win`. -/
def gBothWin : RawGame :=
  ⟨some ⟨some "x", some 1500, some "win"⟩, some ⟨some "x", some 1400, some "win"⟩,
   none, some 5, some "600", some "u", some ""⟩

/-- The canonical row extracted from `gBothWin`. -/
def rowBothWin : CRow := (extract_game_data env0 gBothWin).get (by decide)

/-- A raw record with no white username whose outcome ladder falls through to
the unresolved rung (`pgn_result` is the non-draw string `*`). -/
def gEmptyWhite : RawGame :=
  ⟨some ⟨none, some 1500, some "resigned"⟩,
   some ⟨some "b", some 1400, some "resigned"⟩,
   none, some 5, some "600", some "u", some "x"⟩

/-- The canonical row extracted from `gEmptyWhite`: winner is the empty
string, white username is the empty string. -/
def rowEmptyWhite : CRow := (extract_game_data env1 gEmptyWhite).get (by decide)

/-- A well-formed raw record in which white wins by checkmate. -/
def gWhiteWin : RawGame :=
  ⟨some ⟨some "w", some 1500, some "Win"⟩,
   some ⟨some "b", some 1400, some "checkmated"⟩,
   none, some 7, some "60", some "uw", some ""⟩

/-- The canonical row extracted from `gWhiteWin`. -/
def rowWhiteWin : CRow := (extract_game_data env0 gWhiteWin).get (by decide)

/-- A raw record missing the `white` key. -/
def gMissingWhite : RawGame :=
  ⟨none, some ⟨some "b", some 1, some "win"⟩, none, some 5, some "600", some "u",
   some ""⟩

/-- A well-formed raw record won by white, with url `a` and `end_time` 5. -/
def gTieA : RawGame :=
  ⟨some ⟨some "pa", some 10, some "win"⟩, some ⟨some "qa", some 20, some "resigned"⟩,
   none, some 5, some "600", some "a", some ""⟩

/-- A second well-formed raw record with url `b` and the same `end_time` 5. -/
def gTieB : RawGame :=
  ⟨some ⟨some "pb", some 30, some "win"⟩, some ⟨some "qb", some 40, some "resigned"⟩,
   none, some 5, some "600", some "b", some ""⟩

/-- One batch holding the two equal-timestamp records. -/
def tieBatches : List (List RawGame) := [[gTieA, gTieB]]

/-- The canonical row extracted from `gTieA`. -/
def rowTieA : CRow := (extract_game_data env0 gTieA).get (by decide)

/-- The canonical row extracted from `gTieB`. -/
def rowTieB : CRow := (extract_game_data env0 gTieB).get (by decide)

/-- A canonical row between two tracked players `A` (white, 1500) and `B`
(black, 1400), as the perspective projector reads it from the dataset. -/
def crowAB : CRow :=
  { white_username := "A", black_username := "B", white_rating := 1500,
    black_rating := 1400, result := "1-0", end_time := 5, time_control := "600",
    url := "u", pgn := "", end_date := "", end_datetime := "", year := 0,
    month := "", rating_diff := 100, game_type := "blitz", move_count := 0,
    eco_code := none, opening_name := none, pgn_result := none, winner := "A",
    result_category := "resigned", white_win := true, black_win := false,
    is_draw := false }

/-- The perspective dataset generated from `rowEmptyWhite` with the single
tracked subject being the empty string. -/
def outEmptyWhite : List FPRow :=
  (create_perspective_data [""] [rowEmptyWhite]).get (by decide)

/-- The flagged perspective row of the white side of `rowEmptyWhite`. -/
def pEmptyWhite : FPRow := add_flags (generate_row rowEmptyWhite "white")

/-- A PGN text whose `FEN` header is invalid but whose tag section (`ECO`,
`Result`) reads fine and whose movetext declares a result. -/
def pgnBadFen : String := "[FEN x] 1. e4 1-0"

/-- The abstract game that `chess.pgn.read_game` returns for `pgnBadFen`:
the reader collects the FEN error and returns the game with its headers, but
`game.board()` raises when the repository calls it. -/
def gameBadFen : PgnGame := ⟨some "B20", none, some "1-0", none, 1, true⟩

/-- The collaborator environment for `pgnBadFen`. -/
def envBadFen : PyEnv := ⟨fun _ => some gameBadFen, fun _ => none⟩

/- Helper lemmas about the outcome ladder and the normalizer. -/

lemma outcomeTriple_ladder {wu bu wr br : String} {pr : Option String}
    {w res cat : String}
    (h : outcomeTriple wu bu wr br pr = some (w, res, cat)) :
    (wr = "win" ∧ w = wu ∧ res = "1-0" ∧ cat = br) ∨
    (wr ≠ "win" ∧ br = "win" ∧ w = bu ∧ res = "0-1" ∧ cat = wr) ∨
    (wr ≠ "win" ∧ br ≠ "win" ∧
      (drawTokens.contains wr || drawTokens.contains br) = true ∧
      w = "draw" ∧ res = "1/2-1/2" ∧ cat = wr) ∨
    (wr ≠ "win" ∧ br ≠ "win" ∧
      (drawTokens.contains wr || drawTokens.contains br) = false ∧
      ∃ s, pr = some s ∧ w = (if hasDrawNotation s then "draw" else "") ∧
        res = s ∧ cat = wr ++ "/" ++ br) := by
  unfold outcomeTriple at h
  split_ifs at h with h1 h2 h3
  · left
    simp only [Option.some.injEq, Prod.mk.injEq] at h
    exact ⟨h1, h.1.symm, h.2.1.symm, h.2.2.symm⟩
  · right; left
    simp only [Option.some.injEq, Prod.mk.injEq] at h
    exact ⟨h1, h2, h.1.symm, h.2.1.symm, h.2.2.symm⟩
  · right; right; left
    simp only [Option.some.injEq, Prod.mk.injEq] at h
    exact ⟨h1, h2, by simpa using h3, h.1.symm, h.2.1.symm, h.2.2.symm⟩
  · right; right; right
    cases pr with
    | none => simp at h
    | some s =>
      simp only [Option.some.injEq, Prod.mk.injEq] at h
      exact ⟨h1, h2, by simpa using h3, s, rfl, h.1.symm, h.2.1.symm, h.2.2.symm⟩

lemma mkExtracted_fields {env : PyEnv} {white black : RawPlayer} {end_time : Int}
    {pgn tc url : String} {row : CRow}
    (h : mkExtracted env white black end_time pgn tc url = some row) :
    row.white_username = white.username.getD "" ∧
    row.black_username = black.username.getD "" ∧
    row.white_win = (row.winner == row.white_username) ∧
    row.black_win = (row.winner == row.black_username) ∧
    row.is_draw = (row.winner == "draw") ∧
    outcomeTriple (white.username.getD "") (black.username.getD "")
      (pyLower (white.result.getD "")) (pyLower (black.result.getD ""))
      ((if pgn ≠ "" then parse_pgn_game env pgn else zeroPgnInfo).result)
      = some (row.winner, row.result, row.result_category) := by
  simp only [mkExtracted] at h
  rcases hot : outcomeTriple (white.username.getD "") (black.username.getD "")
      (pyLower (white.result.getD "")) (pyLower (black.result.getD ""))
      ((if pgn ≠ "" then parse_pgn_game env pgn else zeroPgnInfo).result)
    with _ | ⟨w, res, cat⟩
  · rw [hot] at h; simp at h
  · rw [hot] at h
    simp only [Option.some.injEq] at h
    subst h
    simp [hot]

lemma extract_game_data_elim {env : PyEnv} {g : RawGame} {row : CRow}
    (h : extract_game_data env g = some row) :
    ∃ white black end_time pgn,
      g.white = some white ∧ g.black = some black ∧
      g.end_time = some end_time ∧ g.pgn = some pgn ∧
      mkExtracted env white black end_time pgn (g.time_control.getD "")
        (g.url.getD "") = some row := by
  unfold extract_game_data at h
  split at h
  · split at h
    · next white black end_time pgn heq1 heq2 heq3 heq4 =>
      exact ⟨white, black, end_time, pgn, heq1, heq2, heq3, heq4, h⟩
    · exact absurd h (by simp)
  · exact absurd h (by simp)

lemma extract_winner_cases {env : PyEnv} {g : RawGame} {row : CRow}
    (h : extract_game_data env g = some row) :
    row.white_win = (row.winner == row.white_username) ∧
    row.black_win = (row.winner == row.black_username) ∧
    row.is_draw = (row.winner == "draw") ∧
    (row.winner = row.white_username ∨ row.winner = row.black_username ∨
      row.winner = "draw" ∨ row.winner = "") := by
  obtain ⟨white, black, et, pgn, hw, hb, het, hpgn, hmk⟩ := extract_game_data_elim h
  obtain ⟨hwu, hbu, hf1, hf2, hf3, hot⟩ := mkExtracted_fields hmk
  refine ⟨hf1, hf2, hf3, ?_⟩
  rcases outcomeTriple_ladder hot with ⟨_, hwin, _, _⟩ | ⟨_, _, hwin, _, _⟩ |
      ⟨_, _, _, hwin, _, _⟩ | ⟨_, _, _, s, _, hwin, _, _⟩
  · exact Or.inl (hwu ▸ hwin)
  · exact Or.inr (Or.inl (hbu ▸ hwin))
  · exact Or.inr (Or.inr (Or.inl hwin))
  · by_cases hd : hasDrawNotation s = true
    · rw [hd] at hwin; simp at hwin
      exact Or.inr (Or.inr (Or.inl hwin))
    · simp only [Bool.not_eq_true] at hd
      rw [hd] at hwin; simp at hwin
      exact Or.inr (Or.inr (Or.inr hwin))

/-- C1: the outcome ladder fires in fixed priority order on the two
lower-cased player outcome tokens: if the white token equals `win`, the
winner is the white username with result `1-0` and category the black token;
otherwise if the black token equals `win`, the winner is the black username
with result `0-1` and category the white token; otherwise if either token is
a draw token, the winner is the literal `draw` with result `1/2-1/2` and
category the white token.  With both tokens equal to `win` the first rung
applies, so white is treated as the winner. -/
theorem claim_C1 (env : PyEnv) (g : RawGame) (row : CRow)
    (h : extract_game_data env g = some row) :
    (whiteToken g = "win" →
      row.winner = row.white_username ∧ row.result = "1-0" ∧
      row.result_category = blackToken g) ∧
    (whiteToken g ≠ "win" → blackToken g = "win" →
      row.winner = row.black_username ∧ row.result = "0-1" ∧
      row.result_category = whiteToken g) ∧
    (whiteToken g ≠ "win" → blackToken g ≠ "win" →
      (whiteToken g ∈ drawTokens ∨ blackToken g ∈ drawTokens) →
      row.winner = "draw" ∧ row.result = "1/2-1/2" ∧
      row.result_category = whiteToken g) := by
  obtain ⟨white, black, et, pgn, hw, hb, het, hpgn, hmk⟩ := extract_game_data_elim h
  obtain ⟨hwu, hbu, _, _, _, hot⟩ := mkExtracted_fields hmk
  have hwt : whiteToken g = pyLower (white.result.getD "") := by
    simp [whiteToken, hw]
  have hbt : blackToken g = pyLower (black.result.getD "") := by
    simp [blackToken, hb]
  refine ⟨?_, ?_, ?_⟩
  · intro hW
    rcases outcomeTriple_ladder hot with ⟨_, hwin, hres, hcat⟩ | ⟨h1, _, _, _, _⟩ |
        ⟨h1, _, _, _, _, _⟩ | ⟨h1, _, _, _, _, _, _, _⟩
    · exact ⟨hwu ▸ hwin, hres, hbt ▸ hcat⟩
    · exact absurd (hwt ▸ hW) h1
    · exact absurd (hwt ▸ hW) h1
    · exact absurd (hwt ▸ hW) h1
  · intro hW hB
    rcases outcomeTriple_ladder hot with ⟨h1, _, _, _⟩ | ⟨_, _, hwin, hres, hcat⟩ |
        ⟨_, h2, _, _, _, _⟩ | ⟨_, h2, _, _, _, _, _, _⟩
    · exact absurd (hwt ▸ h1) hW
    · exact ⟨hbu ▸ hwin, hres, hwt ▸ hcat⟩
    · exact absurd (hbt ▸ hB) h2
    · exact absurd (hbt ▸ hB) h2
  · intro hW hB hD
    rcases outcomeTriple_ladder hot with ⟨h1, _, _, _⟩ | ⟨_, h2, _, _, _⟩ |
        ⟨_, _, _, hwin, hres, hcat⟩ | ⟨_, _, h3, _, _, _, _, _⟩
    · exact absurd (hwt ▸ h1) hW
    · exact absurd (hbt ▸ h2) hB
    · exact ⟨hwin, hres, hwt ▸ hcat⟩
    · exfalso
      rw [hwt, hbt] at hD
      simp only [Bool.or_eq_false_iff] at h3
      obtain ⟨h3a, h3b⟩ := h3
      simp at h3a h3b
      rcases hD with hD | hD
      · exact h3a hD
      · exact h3b hD

/-- C1 witness: on a concrete record whose white token lower-cases to `win`,
the first rung of the ladder produces winner, result, and category as
claimed. -/
theorem claim_C1_witness :
    rowWhiteWin.winner = rowWhiteWin.white_username ∧ rowWhiteWin.result = "1-0" ∧
    rowWhiteWin.result_category = blackToken gWhiteWin :=
  (claim_C1 env0 gWhiteWin rowWhiteWin (by decide)).1 (by decide)

/-- C2 (code bug): a record that passes validation and reaches the final
rung of the ladder (neither token is `win`, neither is a draw token) with no
notation-declared result is nevertheless rejected: `extracted["result"]`
becomes `None` and the membership test `"1/2-1/2" in None` raises, so
`extract_game_data` returns nothing instead of emitting a best-effort row
with result `1/2-1/2`. -/
theorem claim_C2_code_bug :
    validate_chess_data gNoPgn = true ∧
    whiteToken gNoPgn ≠ "win" ∧ blackToken gNoPgn ≠ "win" ∧
    drawTokens.contains (whiteToken gNoPgn) = false ∧
    drawTokens.contains (blackToken gNoPgn) = false ∧
    extract_game_data env0 gNoPgn = none := by
  decide

/-- C3 counterexample: a validated record in which both sides carry the same
username and white is marked `win` produces a row with `white_win` and
`black_win` both true, so neither is exactly one of the three flags true nor
are all three false. -/
theorem claim_C3_counterexample :
    extract_game_data env0 gBothWin = some rowBothWin ∧
    rowBothWin.white_win = true ∧ rowBothWin.black_win = true ∧
    rowBothWin.is_draw = false ∧
    ¬(((rowBothWin.white_win = true ∧ rowBothWin.black_win = false ∧
          rowBothWin.is_draw = false) ∨
       (rowBothWin.white_win = false ∧ rowBothWin.black_win = true ∧
          rowBothWin.is_draw = false) ∨
       (rowBothWin.white_win = false ∧ rowBothWin.black_win = false ∧
          rowBothWin.is_draw = true)) ∨
      (rowBothWin.white_win = false ∧ rowBothWin.black_win = false ∧
        rowBothWin.is_draw = false ∧ rowBothWin.winner = "")) := by
  decide

/-- C3 (amended): for every emitted canonical row whose two usernames differ
and neither equals the literal `draw`, exactly one of `white_win`,
`black_win`, `is_draw` is true, or all three are false and the winner is the
empty string. -/
theorem claim_C3_amended (env : PyEnv) (g : RawGame) (row : CRow)
    (h : extract_game_data env g = some row)
    (hne : row.white_username ≠ row.black_username)
    (hwd : row.white_username ≠ "draw") (hbd : row.black_username ≠ "draw") :
    ((row.white_win = true ∧ row.black_win = false ∧ row.is_draw = false) ∨
     (row.white_win = false ∧ row.black_win = true ∧ row.is_draw = false) ∨
     (row.white_win = false ∧ row.black_win = false ∧ row.is_draw = true)) ∨
    (row.white_win = false ∧ row.black_win = false ∧ row.is_draw = false ∧
      row.winner = "") := by
  obtain ⟨hf1, hf2, hf3, hcases⟩ := extract_winner_cases h
  rcases hcases with hwin | hwin | hwin | hwin
  · left; left
    refine ⟨?_, ?_, ?_⟩
    · rw [hf1, hwin]; simp
    · rw [hf2, hwin]; simp [hne]
    · rw [hf3, hwin]; simp [hwd]
  · left; right; left
    refine ⟨?_, ?_, ?_⟩
    · rw [hf1, hwin]; simp [Ne.symm hne]
    · rw [hf2, hwin]; simp
    · rw [hf3, hwin]; simp [hbd]
  · left; right; right
    refine ⟨?_, ?_, ?_⟩
    · rw [hf1, hwin]; simp [Ne.symm hwd]
    · rw [hf2, hwin]; simp [Ne.symm hbd]
    · rw [hf3, hwin]; simp
  · by_cases hwu : row.white_username = ""
    · left; left
      have hbu : row.black_username ≠ "" := fun hc => hne (hwu.trans hc.symm)
      refine ⟨?_, ?_, ?_⟩
      · rw [hf1, hwin, hwu]; simp
      · rw [hf2, hwin]; simp [Ne.symm hbu]
      · rw [hf3, hwin]; simp
    · by_cases hbu : row.black_username = ""
      · left; right; left
        refine ⟨?_, ?_, ?_⟩
        · rw [hf1, hwin]; simp [Ne.symm hwu]
        · rw [hf2, hwin, hbu]; simp
        · rw [hf3, hwin]; simp
      · right
        refine ⟨?_, ?_, ?_, hwin⟩
        · rw [hf1, hwin]; simp [Ne.symm hwu]
        · rw [hf2, hwin]; simp [Ne.symm hbu]
        · rw [hf3, hwin]; simp

/-- C3 witness: the amended flag invariant instantiated on a concrete
white-win record with distinct usernames. -/
theorem claim_C3_witness :
    ((rowWhiteWin.white_win = true ∧ rowWhiteWin.black_win = false ∧
        rowWhiteWin.is_draw = false) ∨
     (rowWhiteWin.white_win = false ∧ rowWhiteWin.black_win = true ∧
        rowWhiteWin.is_draw = false) ∨
     (rowWhiteWin.white_win = false ∧ rowWhiteWin.black_win = false ∧
        rowWhiteWin.is_draw = true)) ∨
    (rowWhiteWin.white_win = false ∧ rowWhiteWin.black_win = false ∧
      rowWhiteWin.is_draw = false ∧ rowWhiteWin.winner = "") :=
  claim_C3_amended env0 gWhiteWin rowWhiteWin (by decide) (by decide) (by decide)
    (by decide)

/-- C4: validation passes exactly when the four required keys `white`,
`black`, `end_time`, `pgn` are present, and a record missing any of them
yields no canonical row. -/
theorem claim_C4 (env : PyEnv) (g : RawGame) :
    (validate_chess_data g = true ↔
      (g.white ≠ none ∧ g.black ≠ none ∧ g.end_time ≠ none ∧ g.pgn ≠ none)) ∧
    ((g.white = none ∨ g.black = none ∨ g.end_time = none ∨ g.pgn = none) →
      extract_game_data env g = none) := by
  constructor
  · simp [validate_chess_data, Option.isSome_iff_ne_none, and_assoc]
  · intro hmiss
    have hv : validate_chess_data g = false := by
      rcases hmiss with hm | hm | hm | hm <;> simp [validate_chess_data, hm]
    simp [extract_game_data, hv]

/-- C4 witness: a record missing the `white` key is rejected. -/
theorem claim_C4_witness : extract_game_data env0 gMissingWhite = none :=
  (claim_C4 env0 gMissingWhite).2 (Or.inl rfl)

/- Helper lemmas about url deduplication. -/

lemma dropDupByUrl_sublist (seen : List String) (l : List CRow) :
    (dropDupByUrl seen l).Sublist l := by
  induction l generalizing seen with
  | nil => simp [dropDupByUrl]
  | cons a t ih =>
    unfold dropDupByUrl
    split
    · exact (ih seen).trans (List.sublist_cons_self a t)
    · exact (ih (a.url :: seen)).cons₂ a

lemma dropDupByUrl_mem_firstocc (seen : List String) (l : List CRow) (r : CRow)
    (h : r ∈ dropDupByUrl seen l) :
    r.url ∉ seen ∧ ∃ l₁ l₂, l = l₁ ++ r :: l₂ ∧ ∀ x ∈ l₁, x.url ≠ r.url := by
  induction l generalizing seen with
  | nil => simp [dropDupByUrl] at h
  | cons a t ih =>
    unfold dropDupByUrl at h
    split at h
    · next hmem =>
      obtain ⟨hseen, l₁, l₂, heq, hfirst⟩ := ih seen h
      refine ⟨hseen, a :: l₁, l₂, by rw [heq]; rfl, ?_⟩
      intro x hx
      rcases List.mem_cons.mp hx with hx | hx
      · subst hx
        exact fun hc => hseen (hc ▸ hmem)
      · exact hfirst x hx
    · next hmem =>
      rcases List.mem_cons.mp h with hr | hr
      · subst hr
        exact ⟨hmem, [], t, rfl, by simp⟩
      · obtain ⟨hseen, l₁, l₂, heq, hfirst⟩ := ih (a.url :: seen) hr
        have hane : a.url ≠ r.url := fun hc => hseen (hc ▸ List.mem_cons_self _ _)
        refine ⟨fun hc => hseen (List.mem_cons_of_mem _ hc), a :: l₁, l₂,
          by rw [heq]; rfl, ?_⟩
        intro x hx
        rcases List.mem_cons.mp hx with hx | hx
        · subst hx; exact hane
        · exact hfirst x hx

lemma dropDupByUrl_complete (seen : List String) (l : List CRow) (r : CRow)
    (hr : r ∈ l) (hs : r.url ∉ seen) :
    ∃ x ∈ dropDupByUrl seen l, x.url = r.url := by
  induction l generalizing seen with
  | nil => simp at hr
  | cons a t ih =>
    unfold dropDupByUrl
    rcases List.mem_cons.mp hr with hr' | hr'
    · subst hr'
      split
      · next hmem => exact absurd hmem hs
      · exact ⟨r, List.mem_cons_self _ _, rfl⟩
    · split
      · next hmem => exact ih seen hr' hs
      · next hmem =>
        by_cases hru : r.url = a.url
        · exact ⟨a, List.mem_cons_self _ _, hru.symm⟩
        · obtain ⟨x, hx, hxu⟩ := ih (a.url :: seen) hr'
            (by simp [hs, hru])
          exact ⟨x, List.mem_cons_of_mem _ hx, hxu⟩

lemma dropDupByUrl_pairwise (seen : List String) (l : List CRow) :
    (dropDupByUrl seen l).Pairwise (fun a b => a.url ≠ b.url) := by
  induction l generalizing seen with
  | nil => simp [dropDupByUrl]
  | cons a t ih =>
    unfold dropDupByUrl
    split
    · exact ih seen
    · refine List.Pairwise.cons ?_ (ih (a.url :: seen))
      intro b hb
      have := (dropDupByUrl_mem_firstocc _ _ _ hb).1
      exact fun hc => this (hc ▸ List.mem_cons_self _ _)

lemma dropDupByUrl_keeps_first (seen : List String) (l₁ : List CRow) (r : CRow)
    (l₂ : List CRow) (hfirst : ∀ x ∈ l₁, x.url ≠ r.url) (hs : r.url ∉ seen) :
    r ∈ dropDupByUrl seen (l₁ ++ r :: l₂) := by
  induction l₁ generalizing seen with
  | nil =>
    unfold dropDupByUrl
    simp only [List.nil_append]
    split
    · next hmem => exact absurd hmem hs
    · exact List.mem_cons_self _ _
  | cons a t ih =>
    have hat : ∀ x ∈ t, x.url ≠ r.url := fun x hx => hfirst x (List.mem_cons_of_mem _ hx)
    have har : a.url ≠ r.url := hfirst a (List.mem_cons_self _ _)
    unfold dropDupByUrl
    simp only [List.cons_append]
    split
    · exact ih seen hat hs
    · refine List.mem_cons_of_mem _ (ih (a.url :: seen) hat ?_)
      simp only [List.mem_cons, not_or]
      exact ⟨fun hc => har hc.symm, hs⟩

/-- C5: deduplication of the concatenated normalized rows keeps, in input
order, exactly the first occurrence of each url: the result is a sublist of
the input, every input url is still represented, no two kept rows share a
url, every kept row is the first input row carrying its url, and every such
first occurrence is kept. -/
theorem claim_C5 (env : PyEnv) (batches : List (List RawGame)) (l : List CRow)
    (hl : l = normalized_rows env batches) :
    (dedupeByUrl l).Sublist l ∧
    (∀ r ∈ l, ∃ x ∈ dedupeByUrl l, x.url = r.url) ∧
    (dedupeByUrl l).Pairwise (fun a b => a.url ≠ b.url) ∧
    (∀ r ∈ dedupeByUrl l, ∃ l₁ l₂, l = l₁ ++ r :: l₂ ∧ ∀ x ∈ l₁, x.url ≠ r.url) ∧
    (∀ l₁ l₂ r, l = l₁ ++ r :: l₂ → (∀ x ∈ l₁, x.url ≠ r.url) →
      r ∈ dedupeByUrl l) := by
  subst hl
  set l := normalized_rows env batches with hdef
  refine ⟨dropDupByUrl_sublist [] l, ?_, dropDupByUrl_pairwise [] l, ?_, ?_⟩
  · intro r hr
    exact dropDupByUrl_complete [] l r hr (by simp)
  · intro r hr
    exact (dropDupByUrl_mem_firstocc [] l r hr).2
  · intro l₁ l₂ r heq hfirst
    rw [heq]
    exact dropDupByUrl_keeps_first [] l₁ r l₂ hfirst (by simp)

/-- C5 witness: the first-occurrence characterization instantiated on a
concrete batch list. -/
theorem claim_C5_witness :
    (dedupeByUrl (normalized_rows env0 tieBatches)).Sublist
      (normalized_rows env0 tieBatches) :=
  (claim_C5 env0 tieBatches (normalized_rows env0 tieBatches) rfl).1

/-- C6 counterexample: the dataset sort is `sort_values` with the pandas
default quicksort, whose contract promises only a sorted permutation.  On a
two-row input with equal `end_time`, the reversed output satisfies that
contract but does not keep the original relative order of the tied rows, so
stability is not guaranteed by the code. -/
theorem claim_C6_counterexample :
    processAllFilesRel env0 tieBatches [rowTieB, rowTieA] ∧
    ¬ tieOrderPreserved (dedupeByUrl (normalized_rows env0 tieBatches))
        [rowTieB, rowTieA] := by
  refine ⟨⟨by decide, by decide⟩, ?_⟩
  intro h
  unfold tieOrderPreserved at h
  have := h rowTieA (by decide) rowTieB (by decide) (by decide) (by decide)
  exact absurd this (by decide)

/-- C6 (amended): the dataset built by `process_all_files` is a permutation
of the deduplicated normalized rows that is non-decreasing in `end_time`
(one behaviour permitted by the `sort_values` contract); the relative order
of rows with equal `end_time` is left unspecified by that contract. -/
theorem claim_C6_amended (env : PyEnv) (batches : List (List RawGame)) :
    processAllFilesRel env batches (process_all_files env batches) :=
  ⟨List.perm_insertionSort rowLe _, List.sorted_insertionSort rowLe _⟩

/- Helper lemmas about the perspective projector. -/

lemma generate_row_player_name (r : CRow) (side : String) :
    (generate_row r side).player_name =
      (if (side == "white") = true then r.white_username else r.black_username) := rfl

lemma generate_row_result_status (r : CRow) (side : String) :
    (generate_row r side).result_status =
      (if r.winner = "draw" then "Draw"
       else if r.winner = (generate_row r side).player_name then "Win"
       else "Loss") := rfl

lemma generate_row_rating_diff (r : CRow) (side : String) :
    (generate_row r side).rating_diff =
      (if (side == "white") = true then r.white_rating - r.black_rating
       else r.black_rating - r.white_rating) := by
  unfold generate_row
  dsimp only
  split <;> rfl

lemma generate_row_status_cases (r : CRow) (side : String) :
    (generate_row r side).result_status = "Win" ∨
    (generate_row r side).result_status = "Draw" ∨
    (generate_row r side).result_status = "Loss" := by
  rw [generate_row_result_status]
  split_ifs <;> simp

lemma perspective_rows_for_mem {subjects : List String} {r : CRow} {q : PRow}
    (h : q ∈ perspective_rows_for subjects r) :
    q = generate_row r "white" ∨ q = generate_row r "black" := by
  unfold perspective_rows_for at h
  rcases List.mem_append.mp h with h | h
  · split at h
    · exact Or.inl (by simpa using h)
    · simp at h
  · split at h
    · exact Or.inr (by simpa using h)
    · simp at h

/-- C7: per canonical row the projector emits one row for each side whose
username is in the subject list, white first, then black: no row when
neither side is tracked, exactly the white-perspective row or the
black-perspective row when one side is tracked, and both rows (white first)
when both are tracked — in which case the two player-relative rating
differences are the white-minus-black and black-minus-white values, of
equal magnitude and opposite sign. -/
theorem claim_C7 (subjects : List String) (r : CRow) :
    (∀ p ∈ perspective_rows_for subjects r, subjects.contains p.player_name = true) ∧
    (subjects.contains r.white_username = false →
      subjects.contains r.black_username = false →
      perspective_rows_for subjects r = []) ∧
    (subjects.contains r.white_username = true →
      subjects.contains r.black_username = false →
      perspective_rows_for subjects r = [generate_row r "white"]) ∧
    (subjects.contains r.white_username = false →
      subjects.contains r.black_username = true →
      perspective_rows_for subjects r = [generate_row r "black"]) ∧
    (subjects.contains r.white_username = true →
      subjects.contains r.black_username = true →
      perspective_rows_for subjects r =
        [generate_row r "white", generate_row r "black"] ∧
      (generate_row r "white").rating_diff = r.white_rating - r.black_rating ∧
      (generate_row r "black").rating_diff = r.black_rating - r.white_rating ∧
      (generate_row r "white").rating_diff = -(generate_row r "black").rating_diff) := by
  refine ⟨?_, ?_, ?_, ?_, ?_⟩
  · intro p hp
    unfold perspective_rows_for at hp
    rcases List.mem_append.mp hp with hp | hp
    · by_cases hw : subjects.contains r.white_username
      · rw [if_pos hw] at hp
        have : p = generate_row r "white" := by simpa using hp
        rw [this, generate_row_player_name]
        simpa using hw
      · rw [if_neg hw] at hp
        simp at hp
    · by_cases hb : subjects.contains r.black_username
      · rw [if_pos hb] at hp
        have : p = generate_row r "black" := by simpa using hp
        rw [this, generate_row_player_name]
        simpa using hb
      · rw [if_neg hb] at hp
        simp at hp
  · intro hw hb
    unfold perspective_rows_for
    rw [hw, hb]
    simp
  · intro hw hb
    unfold perspective_rows_for
    rw [hw, hb]
    simp
  · intro hw hb
    unfold perspective_rows_for
    rw [hw, hb]
    simp
  · intro hw hb
    unfold perspective_rows_for
    rw [hw, hb]
    refine ⟨by simp, ?_, ?_, ?_⟩
    · rw [generate_row_rating_diff]; simp
    · rw [generate_row_rating_diff]; simp
    · rw [generate_row_rating_diff, generate_row_rating_diff]; simp

/-- C7 witness: with subjects `A` and `B` and a row between them, both
perspective rows are emitted, white first, with opposite rating
differences. -/
theorem claim_C7_witness :
    perspective_rows_for ["A", "B"] crowAB =
      [generate_row crowAB "white", generate_row crowAB "black"] ∧
    (generate_row crowAB "white").rating_diff =
      crowAB.white_rating - crowAB.black_rating ∧
    (generate_row crowAB "black").rating_diff =
      crowAB.black_rating - crowAB.white_rating ∧
    (generate_row crowAB "white").rating_diff =
      -(generate_row crowAB "black").rating_diff :=
  (claim_C7 ["A", "B"] crowAB).2.2.2.2 (by decide) (by decide)

/-- C8: the difficulty category of every perspective row is computed from
its player-relative rating difference by the first-match rule chain, whose
rungs carve the integers into the half-open intervals `[100, ∞)`,
`[25, 100)`, `(-25, 25)`, `(-100, -25]`, `(-∞, -100]`; in particular the
boundary values 100, 25, -25, -100 land in Much Stronger, Stronger, Weaker,
Much Weaker respectively. -/
theorem claim_C8 :
    (∀ (r : CRow) (perspective : String),
      (generate_row r perspective).difficulty_category =
        difficulty_bucket (generate_row r perspective).rating_diff) ∧
    (∀ d : Int,
      (100 ≤ d → difficulty_bucket d = "Much Stronger (+100+)") ∧
      (25 ≤ d → d < 100 → difficulty_bucket d = "Stronger (+25 to +99)") ∧
      (-25 < d → d < 25 → difficulty_bucket d = "Similar (±25)") ∧
      (-100 < d → d ≤ -25 → difficulty_bucket d = "Weaker (-25 to -99)") ∧
      (d ≤ -100 → difficulty_bucket d = "Much Weaker (-100+)")) := by
  constructor
  · intro r p
    rfl
  · intro d
    refine ⟨?_, ?_, ?_, ?_, ?_⟩
    · intro h
      unfold difficulty_bucket
      rw [if_pos h]
    · intro h1 h2
      unfold difficulty_bucket
      rw [if_neg (by omega), if_pos h1]
    · intro h1 h2
      unfold difficulty_bucket
      rw [if_neg (by omega), if_neg (by omega), if_pos h1]
    · intro h1 h2
      unfold difficulty_bucket
      rw [if_neg (by omega), if_neg (by omega), if_neg (by omega), if_pos h1]
    · intro h
      unfold difficulty_bucket
      rw [if_neg (by omega), if_neg (by omega), if_neg (by omega),
        if_neg (by omega)]

/-- C8 witness: the spec boundary table, each entry obtained from the bucket
characterization. -/
theorem claim_C8_witness :
    difficulty_bucket 100 = "Much Stronger (+100+)" ∧
    difficulty_bucket 99 = "Stronger (+25 to +99)" ∧
    difficulty_bucket 25 = "Stronger (+25 to +99)" ∧
    difficulty_bucket 24 = "Similar (±25)" ∧
    difficulty_bucket (-24) = "Similar (±25)" ∧
    difficulty_bucket (-25) = "Weaker (-25 to -99)" ∧
    difficulty_bucket (-100) = "Much Weaker (-100+)" ∧
    difficulty_bucket (-101) = "Much Weaker (-100+)" :=
  ⟨(claim_C8.2 100).1 (by decide), (claim_C8.2 99).2.1 (by decide) (by decide),
   (claim_C8.2 25).2.1 (by decide) (by decide),
   (claim_C8.2 24).2.2.1 (by decide) (by decide),
   (claim_C8.2 (-24)).2.2.1 (by decide) (by decide),
   (claim_C8.2 (-25)).2.2.2.1 (by decide) (by decide),
   (claim_C8.2 (-100)).2.2.2.2 (by decide),
   (claim_C8.2 (-101)).2.2.2.2 (by decide)⟩

/-- C9 counterexample: a PGN whose tag section reads successfully but whose
invalid `FEN` header makes `game.board()` raise yields a partial record —
the `ECO` and `Result` headers are kept (non-null) while `move_count` is
0 — not the zero-value record the claim demands for every parse failure. -/
theorem claim_C9_counterexample :
    parse_pgn_game envBadFen pgnBadFen ≠ zeroPgnInfo ∧
    (parse_pgn_game envBadFen pgnBadFen).eco_code = some "B20" ∧
    (parse_pgn_game envBadFen pgnBadFen).result = some "1-0" ∧
    (parse_pgn_game envBadFen pgnBadFen).move_count = 0 := by
  decide

/-- C9 (amended): when the PGN reader yields no game — empty, whitespace-only
or unreadable input — the parser returns the zero-value record; when the
reader yields a game but building the board (or replaying a move) raises,
the failure is still absorbed rather than propagated, `move_count` is 0, but
the already-extracted header fields (`eco_code`, `opening_name`, `result`)
are kept, so the returned record is partial rather than zero-value. -/
theorem claim_C9_amended (env : PyEnv) (s : String) :
    (env.read_game s = none → parse_pgn_game env s = zeroPgnInfo) ∧
    (∀ game, env.read_game s = some game → game.board_raises = true →
      (parse_pgn_game env s).move_count = 0 ∧
      (parse_pgn_game env s).eco_code = game.eco ∧
      (parse_pgn_game env s).opening_name = opening_name_of game ∧
      (parse_pgn_game env s).result = game.result) := by
  constructor
  · intro h
    unfold parse_pgn_game
    rw [h]
  · intro game hg hbr
    have hp : parse_pgn_game env s = ⟨0, game.eco, opening_name_of game, game.result⟩ := by
      unfold parse_pgn_game
      rw [hg]
      dsimp only
      rw [if_pos hbr]
    rw [hp]
    exact ⟨rfl, rfl, rfl, rfl⟩

/-- C9 witness: both rungs of the amended statement at concrete inputs — the
zero-value record on the empty string under a reader yielding no game, and
the partial record under the failing-board environment. -/
theorem claim_C9_witness :
    parse_pgn_game env0 "" = zeroPgnInfo ∧
    ((parse_pgn_game envBadFen pgnBadFen).move_count = 0 ∧
     (parse_pgn_game envBadFen pgnBadFen).eco_code = gameBadFen.eco ∧
     (parse_pgn_game envBadFen pgnBadFen).opening_name = opening_name_of gameBadFen ∧
     (parse_pgn_game envBadFen pgnBadFen).result = gameBadFen.result) :=
  ⟨(claim_C9_amended env0 "").1 rfl,
   (claim_C9_amended envBadFen pgnBadFen).2 gameBadFen rfl rfl⟩

/-- C10 counterexample: a canonical row with empty winner and an empty white
username, tracked under the empty-string subject, yields a perspective row
with result status `Win`, not `Loss`. -/
theorem claim_C10_counterexample :
    rowEmptyWhite.winner = "" ∧
    rowEmptyWhite.white_username = "" ∧
    extract_game_data env1 gEmptyWhite = some rowEmptyWhite ∧
    (create_perspective_data [""] [rowEmptyWhite]).map
      (fun l => l.map (fun p => (p.player_name, p.result_status))) =
      some [("", "Win")] := by
  decide

/-- C10 (amended): every emitted perspective row has result status `Win`,
`Draw`, or `Loss` and exactly one of the flags `is_win`, `is_loss`,
`is_draw` equal to 1; and a canonical row whose winner is the empty string
yields result status `Loss` for every tracked subject on that row whose
username is non-empty. -/
theorem claim_C10_amended :
    (∀ (subjects : List String) (rows : List CRow) (out : List FPRow),
      create_perspective_data subjects rows = some out →
      ∀ p ∈ out,
        (p.result_status = "Win" ∨ p.result_status = "Draw" ∨
          p.result_status = "Loss") ∧
        ((p.is_win = 1 ∧ p.is_loss = 0 ∧ p.is_draw = 0) ∨
         (p.is_win = 0 ∧ p.is_loss = 1 ∧ p.is_draw = 0) ∨
         (p.is_win = 0 ∧ p.is_loss = 0 ∧ p.is_draw = 1))) ∧
    (∀ (r : CRow) (side : String), r.winner = "" →
      (generate_row r side).player_name ≠ "" →
      (generate_row r side).result_status = "Loss") := by
  constructor
  · intro subjects rows out hout p hp
    simp only [create_perspective_data] at hout
    split at hout
    · exact absurd hout (by simp)
    · have hout' : List.insertionSort fpLe
          ((rows.flatMap (perspective_rows_for subjects)).map add_flags) = out := by
        simpa using hout
      rw [← hout'] at hp
      have hp' : p ∈ (rows.flatMap (perspective_rows_for subjects)).map add_flags :=
        (List.perm_insertionSort fpLe _).mem_iff.mp hp
      obtain ⟨q, hq, hpq⟩ := List.mem_map.mp hp'
      obtain ⟨r, _, hqr⟩ := List.mem_flatMap.mp hq
      have hstatus : q.result_status = "Win" ∨ q.result_status = "Draw" ∨
          q.result_status = "Loss" := by
        rcases perspective_rows_for_mem hqr with h | h <;>
          (rw [h]; exact generate_row_status_cases r _)
      have hps : p.result_status = q.result_status := by rw [← hpq]; rfl
      constructor
      · rw [hps]; exact hstatus
      · have hw : p.is_win = (if q.result_status = "Win" then (1 : Int) else 0) := by
          rw [← hpq]; rfl
        have hl : p.is_loss = (if q.result_status = "Loss" then (1 : Int) else 0) := by
          rw [← hpq]; rfl
        have hd : p.is_draw = (if q.result_status = "Draw" then (1 : Int) else 0) := by
          rw [← hpq]; rfl
        rcases hstatus with hs | hs | hs
        · left; rw [hw, hl, hd, hs]; simp
        · right; right; rw [hw, hl, hd, hs]; simp
        · right; left; rw [hw, hl, hd, hs]; simp
  · intro r side hw hpn
    rw [generate_row_result_status, hw]
    rw [if_neg (by decide)]
    rw [if_neg (fun hc => hpn (Eq.symm hc))]

/-- C10 witness: the flag invariant on the perspective dataset of a concrete
row, and the `Loss` status of the non-empty-named black side of an
unresolved game. -/
theorem claim_C10_witness :
    ((pEmptyWhite.result_status = "Win" ∨ pEmptyWhite.result_status = "Draw" ∨
        pEmptyWhite.result_status = "Loss") ∧
     ((pEmptyWhite.is_win = 1 ∧ pEmptyWhite.is_loss = 0 ∧ pEmptyWhite.is_draw = 0) ∨
      (pEmptyWhite.is_win = 0 ∧ pEmptyWhite.is_loss = 1 ∧ pEmptyWhite.is_draw = 0) ∨
      (pEmptyWhite.is_win = 0 ∧ pEmptyWhite.is_loss = 0 ∧ pEmptyWhite.is_draw = 1))) ∧
    (generate_row rowEmptyWhite "black").result_status = "Loss" :=
  ⟨claim_C10_amended.1 [""] [rowEmptyWhite] outEmptyWhite (by decide) pEmptyWhite
      (by decide),
   claim_C10_amended.2 rowEmptyWhite "black" (by decide) (by decide)⟩

end ChessETL
